import Mathlib

/-!
Verification of the configuration-synthesis and safe-merge core of the
`obsidian-mcp-server` plugin (`src/main.ts`).

The development shallowly embeds:
* the JSON values produced by `JSON.parse` / consumed by `JSON.stringify`
  (inductive `Json`, with a pretty-printer `Json.stringify2` modelling
  `JSON.stringify(v, null, 2)`);
* the fragment synthesizer `_updateMcpJsonConfigDisplay` (lines 173-196),
  as the pure functions `mcpJsonConfigFragment` / `mcpJsonConfigOf` /
  `updateMcpJsonConfigDisplay`;
* the `maxHistoryFiles` text-field change handler of `_buildPluginSettingsUI`
  (lines 264-286), as `maxHistoryFilesOnChange`, together with a faithful
  model `jsParseInt` of JavaScript `parseInt(value, 10)`;
* the "Update JSON" button handler of `_buildUpdateClaudeDesktopConfigFile`
  (lines 423-519), as `updateClaudeDesktopConfigFile`, operating on an explicit model of
  the file-system state at the target path and recording every file-system
  operation the handler performs in an `FsOp` trace.

JavaScript semantics that matter and are modelled explicitly:
* `typeof x === 'object'` is true for objects, arrays and `null`;
* assigning a string-keyed property to a JavaScript array succeeds, but
  `JSON.stringify` serializes only the index elements, silently dropping
  such properties;
* property assignment on a plain object keeps the key's insertion position
  when the key already exists, and appends otherwise;
* `parseInt(s, 10)` skips leading whitespace, reads an optional sign and
  the longest prefix of decimal digits, and yields `NaN` when that prefix
  is empty.
-/

/-- A JSON value as produced by `JSON.parse`.  Numbers are modelled as `Int`:
every number occurring in the claims and in the code's own data is integral. -/
inductive Json where
  | null
  | bool (b : Bool)
  | num  (n : Int)
  | str  (s : String)
  | arr  (elems : List Json)
  | obj  (members : List (String × Json))
deriving Inhabited

/-! ### `JSON.stringify(v, null, 2)` -/

/-- One lowercase hexadecimal digit. -/
def hexDigit (n : Nat) : String :=
  String.singleton (Char.ofNat (if n < 10 then 48 + n else 87 + n))

/-- How `JSON.stringify` escapes one character inside a string literal. -/
def escapeChar (c : Char) : String :=
  if c = '"' then "\\\""
  else if c = '\\' then "\\\\"
  else if c = '\n' then "\\n"
  else if c = '\r' then "\\r"
  else if c = '\t' then "\\t"
  else if c.toNat = 8 then "\\b"
  else if c.toNat = 12 then "\\f"
  else if c.toNat < 32 then "\\u00" ++ hexDigit (c.toNat / 16) ++ hexDigit (c.toNat % 16)
  else String.singleton c

/-- A JSON string literal: quotes around the escaped characters. -/
def escapeString (s : String) : String :=
  "\"" ++ String.join (s.data.map escapeChar) ++ "\""

/-- `n` spaces. -/
def indentSp (n : Nat) : String := String.mk (List.replicate n ' ')

mutual
/-- `JSON.stringify(v, null, 2)` at the current indentation level `ind`. -/
def stringifyAt : Nat → Json → String
  | _, .null => "null"
  | _, .bool b => if b then "true" else "false"
  | _, .num n => toString n
  | _, .str s => escapeString s
  | ind, .arr es =>
    match es with
    | [] => "[]"
    | _ :: _ => "[\n" ++ stringifyElems (ind + 2) es ++ "\n" ++ indentSp ind ++ "]"
  | ind, .obj ms =>
    match ms with
    | [] => "\x7b\x7d"
    | _ :: _ => "\x7b\n" ++ stringifyMembers (ind + 2) ms ++ "\n" ++ indentSp ind ++ "\x7d"
/-- The comma-and-newline separated, indented array elements. -/
def stringifyElems : Nat → List Json → String
  | _, [] => ""
  | ind, [e] => indentSp ind ++ stringifyAt ind e
  | ind, e :: es => indentSp ind ++ stringifyAt ind e ++ ",\n" ++ stringifyElems ind es
/-- The comma-and-newline separated, indented object members. -/
def stringifyMembers : Nat → List (String × Json) → String
  | _, [] => ""
  | ind, [(k, v)] => indentSp ind ++ escapeString k ++ ": " ++ stringifyAt ind v
  | ind, (k, v) :: ms =>
    indentSp ind ++ escapeString k ++ ": " ++ stringifyAt ind v ++ ",\n" ++ stringifyMembers ind ms
end

/-- `JSON.stringify(v, null, 2)`. -/
def Json.stringify2 (v : Json) : String := stringifyAt 0 v

/-! ### JavaScript object semantics used by the code -/

/-- JavaScript property read `o[k]` (`none` models `undefined`).  A string-keyed
read on an array or a primitive yields `undefined` for the keys this code reads. -/
def jsGetProp : Json → String → Option Json
  | .obj members, k => members.lookup k
  | _, _ => none

/-- Two-level property read `o[k1][k2]`. -/
def jsGetProp2 (v : Json) (k1 k2 : String) : Option Json :=
  match jsGetProp v k1 with
  | some w => jsGetProp w k2
  | none => none

/-- JavaScript property assignment on a plain object: when the key exists it is
replaced in place (its insertion position is kept); otherwise it is appended. -/
def jsSetProp (members : List (String × Json)) (k : String) (v : Json) :
    List (String × Json) :=
  if members.any (fun m => m.1 == k) then
    members.map (fun m => bif m.1 == k then (k, v) else m)
  else members ++ [(k, v)]

/-- `Object.keys(x).length` for the values that can reach the check at line 439
(`McpJsonConfig` is always the one-entry wrapper object once it has been set). -/
def jsKeysLength : Json → Nat
  | .obj members => members.length
  | .arr es => es.length
  | .str s => s.length
  | _ => 0

/-! ### Settings and credentials (`MyPluginSettings`, `getLocalRestApiCredentials`) -/

/-- The plugin's persisted settings (`MyPluginSettings`, lines 6-11).
`maxHistoryFiles` is a JavaScript number holding an integer, so `Int`. -/
structure MyPluginSettings where
  claudeConfigPath : String
  uvPath : Option String
  historyFolder : Option String
  maxHistoryFiles : Int
deriving DecidableEq, Repr

/-- The companion plugin's settings, when it is installed (`LocalRestApiPlugin`). -/
structure LocalRestApiSettings where
  port : Int
  apiKey : String
deriving DecidableEq, Repr

/-- A credential lookup result (`getLocalRestApiCredentials` return type). -/
structure RestApiCredentials where
  url : Option String
  apiKey : Option String
deriving DecidableEq, Repr

/-- `getLocalRestApiCredentials` (lines 158-166): build the URL from the
companion plugin's port when it is installed, otherwise both fields null. -/
def getLocalRestApiCredentials : Option LocalRestApiSettings → RestApiCredentials
  | some s => { url := some ("https://127.0.0.1:" ++ toString s.port), apiKey := some s.apiKey }
  | none => { url := none, apiKey := none }

/-- A nullable string as a JSON value. -/
def optStr : Option String → Json
  | some s => .str s
  | none => .null

/-- `cs` is a prefix of `ds` (on character lists). -/
def charsPrefix : List Char → List Char → Bool
  | [], _ => true
  | _ :: _, [] => false
  | a :: as, b :: bs => a == b && charsPrefix as bs

/-- Model of JavaScript `String.prototype.startsWith`. -/
def jsStartsWith (s pre : String) : Bool := charsPrefix pre.data s.data

/-- Model of JavaScript `String.prototype.trim`: strip whitespace from both
ends. -/
def jsTrim (s : String) : String :=
  String.mk (((s.data.dropWhile Char.isWhitespace).reverse.dropWhile Char.isWhitespace).reverse)

/-- Model of JavaScript `String.prototype.substring(n)`: drop the first `n`
characters. -/
def jsSubstring (s : String) (n : Nat) : String := String.mk (s.data.drop n)

/-- Model of Node `path.join` on two segments (external library): concatenation
with a single separator at the boundary.  Only its determinism matters here. -/
def nodeJoin2 (a b : String) : String :=
  if jsStartsWith b "/" || jsStartsWith b "\\" then a ++ b else a ++ "/" ++ b

/-- The fixed entry key under `mcpServers` (line 178). -/
def entryKey : String := "yor-dev/mcp-obsidian"

/-! ### Fragment synthesis (`_updateMcpJsonConfigDisplay`, lines 173-196) -/

/-- The single-entry configuration fragment built at lines 178-192: `command`
is `settings.uvPath` when truthy (a non-empty string) and the default `"uv"`
otherwise; `args` is the fixed invocation plus the joined package path; `env`
maps the four fixed keys to the credentials, the history folder (null when
unset) and `String(maxHistoryFiles)`. -/
def mcpJsonConfigFragment (settings : MyPluginSettings) (basePath pluginDir : String)
    (credentials : RestApiCredentials) : Json :=
  .obj [
    ("command", .str (match settings.uvPath with
      | some p => if p = "" then "uv" else p
      | none => "uv")),
    ("args", .arr [.str "tool", .str "run",
      .str (nodeJoin2 (nodeJoin2 basePath pluginDir) "/python-packages/obsidian-mcp-server")]),
    ("env", .obj [
      ("OBSIDIAN_API_KEY", optStr credentials.apiKey),
      ("OBSIDIAN_HOST", optStr credentials.url),
      ("OBSIDIAN_HISTORY_FOLDER", optStr settings.historyFolder),
      ("OBSIDIAN_MAX_HISTORY_FILES", .str (toString settings.maxHistoryFiles))])]

/-- The value assigned to `this.McpJsonConfig` (line 177): the fragment wrapped
under the fixed entry key. -/
def mcpJsonConfigOf (settings : MyPluginSettings) (basePath pluginDir : String)
    (credentials : RestApiCredentials) : Json :=
  .obj [(entryKey, mcpJsonConfigFragment settings basePath pluginDir credentials)]

/-- The text shown in the read-only text area (line 194):
`JSON.stringify(this.McpJsonConfig, null, 2)`. -/
def updateMcpJsonConfigDisplay (settings : MyPluginSettings) (basePath pluginDir : String)
    (credentials : RestApiCredentials) : String :=
  Json.stringify2 (mcpJsonConfigOf settings basePath pluginDir credentials)

/-! ### The `Max History Files` change handler (lines 264-286) -/

/-- Model of JavaScript `parseInt(s, 10)`: skip leading whitespace, read an
optional sign, then the longest prefix of decimal digits; `none` models `NaN`
(no digit found). -/
def jsParseInt (s : String) : Option Int :=
  let cs := s.data.dropWhile (fun c => c.isWhitespace)
  let signAndRest : Int × List Char :=
    match cs with
    | '-' :: rest => (-1, rest)
    | '+' :: rest => (1, rest)
    | _ => (1, cs)
  let ds := signAndRest.2.takeWhile (fun c => c.isDigit)
  if ds.isEmpty then none
  else some (signAndRest.1 * ((ds.foldl (fun a c => a * 10 + (c.toNat - 48)) 0 : Nat) : Int))

/-- The observable result of the `Max History Files` `onChange` handler. -/
structure MaxHistoryChangeResult where
  /-- `this.plugin.settings.maxHistoryFiles` after the handler ran. -/
  maxHistoryFiles : Int
  /-- `some v`: the handler called `text.setValue(v)` to restore the display. -/
  displayValue : Option String
  /-- whether a `Notice` was shown. -/
  noticeShown : Bool
  /-- whether `_updateMcpJsonConfigDisplay` was re-invoked. -/
  configRecomputed : Bool
deriving DecidableEq, Repr

/-- The `onChange` handler at lines 267-281: accept `parseInt(value, 10)` when
it is a number `≥ 0`, otherwise notify and restore the prior displayed value. -/
def maxHistoryFilesOnChange (prev : Int) (value : String) : MaxHistoryChangeResult :=
  match jsParseInt value with
  | some n =>
    if n ≥ 0 then
      { maxHistoryFiles := n, displayValue := none, noticeShown := false,
        configRecomputed := true }
    else
      { maxHistoryFiles := prev, displayValue := some (toString prev), noticeShown := true,
        configRecomputed := false }
  | none =>
    { maxHistoryFiles := prev, displayValue := some (toString prev), noticeShown := true,
      configRecomputed := false }

/-! ### The `Update JSON` button handler (`_buildUpdateClaudeDesktopConfigFile`,
lines 423-519) -/

/-- A file-system call performed by the handler, in order. -/
inductive FsOp where
  /-- `fs.existsSync(dirPath)` (line 475). -/
  | checkDir (p : String)
  /-- `fs.mkdirSync(dirPath, \x7b recursive: true \x7d)` (line 477). -/
  | mkdir (p : String)
  /-- `fs.existsSync(filePath)` (line 485). -/
  | checkFile (p : String)
  /-- `fs.readFileSync(filePath, 'utf-8')` (line 487). -/
  | readFile (p : String)
  /-- `fs.writeFileSync(filePath, ..., 'utf-8')` (line 508). -/
  | writeFile (p : String)
deriving DecidableEq, Repr

/-- Model of Node `path.dirname` (external library): the portion of the path
before its final separator; `.` when there is no separator, the separator
itself when it is the leading character. -/
def dirname (p : String) : String :=
  match p.data.reverse.dropWhile (fun c => c != '/' && c != '\\') with
  | [] => "."
  | sep :: rest => if rest.isEmpty then String.singleton sep else String.mk rest.reverse

/-- Tilde expansion (lines 444-463): when the path starts with `~/` or `~\`
and `os.homedir()` yields a home directory, join it with the remainder
(dropping two characters after `~/`, one after `~\`); when the home directory
cannot be determined the handler shows a notice (`Could not expand ...`) and
continues with the path UNCHANGED — it does not abort.  Returns the path used
from here on and whether that notice was shown. -/
def resolveTargetPath (filePath : String) (homedir : Option String) : String × Bool :=
  if jsStartsWith filePath "~/" || jsStartsWith filePath "~\\" then
    match homedir with
    | some h =>
      (nodeJoin2 h (jsSubstring filePath (if jsStartsWith filePath "~/" then 2 else 1)), false)
    | none => (filePath, true)
  else (filePath, false)

/-- The check at line 439: `!this.McpJsonConfig ||
Object.keys(this.McpJsonConfig).length === 0` (`none` models `undefined`). -/
def noConfigData : Option Json → Bool
  | none => true
  | some c => jsKeysLength c == 0

/-- The key-scoped merge (lines 500-505) followed by `JSON.stringify` of the
whole document (line 508), expressed as the JSON value the write produces.
`typeof x === 'object'` holds for objects, arrays and null, so:
* an existing `mcpServers` that is an object gets the entry assigned;
* an existing `mcpServers` that is an array passes the guard, but the
  string-keyed property assigned to it is dropped again by `JSON.stringify`,
  so it comes out unchanged;
* a missing, null or primitive `mcpServers` is replaced by `\x7b\x7d` first.
A whole document that is an array likewise passes the earlier guard and loses
the assigned property at serialization (`fragment = none` models the
assignment of `undefined`, whose key `JSON.stringify` omits). -/
def mergedMcpServers (members : List (String × Json)) (fragment : Option Json) : Json :=
  match members.lookup "mcpServers" with
  | some (.obj m) =>
    match fragment with
    | some f => Json.obj (jsSetProp m entryKey f)
    | none => Json.obj (m.filter (fun p => p.1 != entryKey))
  | some (.arr a) => Json.arr a
  | _ =>
    match fragment with
    | some f => Json.obj [(entryKey, f)]
    | none => Json.obj []

/-- The whole-document effect of lines 500-508 (see `mergedMcpServers`). -/
def jsMergeEntry (fileConfig : Json) (fragment : Option Json) : Json :=
  match fileConfig with
  | .obj members => .obj (jsSetProp members "mcpServers" (mergedMcpServers members fragment))
  | .arr es => .arr es
  | other => other

/-- The state of the file at the target path: `none` — absent; `some none` —
present but not parseable as JSON; `some (some j)` — present and parses to `j`. -/
abbrev FileState := Option (Option Json)

/-- Everything the `Update JSON` click handler reads. -/
structure UpdateInput where
  /-- `this.plugin.settings.claudeConfigPath` (line 432). -/
  claudeConfigPath : String
  /-- `this.McpJsonConfig`; `none` models `undefined` (never computed). -/
  mcpJsonConfig : Option Json
  /-- `os.homedir()`; `none` when it cannot be determined (line 450). -/
  homedir : Option String
  /-- whether `dirname` of the resolved path exists (line 475). -/
  dirExists : Bool
  /-- the file at the resolved path. -/
  fileState : FileState

/-- How the handler ended. -/
inductive UpdateOutcome where
  /-- notice `Error: "Claude Desktop Config Path" is not set...` (line 435). -/
  | errNoPath
  /-- notice `Error: There is no configuration data.` (line 440). -/
  | errNoConfig
  /-- notice `Warning: Existing file ... It cannnot be updated` (line 491);
  the handler returns without writing. -/
  | invalidExisting
  /-- the handler wrote `JSON.stringify(doc, null, 2)` and showed the success
  notice; `warnedMalformed` records the line-495 notice for an unparseable
  existing file. -/
  | written (warnedMalformed : Bool) (doc : Json)

/-- Everything the handler did that is observable. -/
structure UpdateOutput where
  outcome : UpdateOutcome
  /-- the path actually used after tilde handling. -/
  resolvedPath : String
  /-- whether the `Could not expand "~" ...` notice was shown (line 457). -/
  tildeNoticeShown : Bool
  /-- the file-system calls performed, in order. -/
  fsOps : List FsOp
  /-- the file at the resolved path afterwards. -/
  fileState : FileState
  /-- whether the parent directory exists afterwards. -/
  dirExists : Bool

/-- The `Update JSON` click handler (lines 431-515). -/
def updateClaudeDesktopConfigFile (i : UpdateInput) : UpdateOutput :=
  if jsTrim i.claudeConfigPath = "" then
    { outcome := .errNoPath, resolvedPath := i.claudeConfigPath, tildeNoticeShown := false,
      fsOps := [], fileState := i.fileState, dirExists := i.dirExists }
  else if noConfigData i.mcpJsonConfig then
    { outcome := .errNoConfig, resolvedPath := i.claudeConfigPath, tildeNoticeShown := false,
      fsOps := [], fileState := i.fileState, dirExists := i.dirExists }
  else
    let rp := resolveTargetPath i.claudeConfigPath i.homedir
    let dirP := dirname rp.1
    let preOps := [FsOp.checkDir dirP] ++ (if i.dirExists then [] else [FsOp.mkdir dirP])
      ++ [FsOp.checkFile rp.1]
    let fragment := jsGetProp (i.mcpJsonConfig.getD .null) entryKey
    match i.fileState with
    | none =>
      let doc := jsMergeEntry (.obj []) fragment
      { outcome := .written false doc, resolvedPath := rp.1, tildeNoticeShown := rp.2,
        fsOps := preOps ++ [FsOp.writeFile rp.1], fileState := some (some doc),
        dirExists := true }
    | some none =>
      let doc := jsMergeEntry (.obj []) fragment
      { outcome := .written true doc, resolvedPath := rp.1, tildeNoticeShown := rp.2,
        fsOps := preOps ++ [FsOp.readFile rp.1, FsOp.writeFile rp.1],
        fileState := some (some doc), dirExists := true }
    | some (some j) =>
      match j with
      | .obj members =>
        let doc := jsMergeEntry (.obj members) fragment
        { outcome := .written false doc, resolvedPath := rp.1, tildeNoticeShown := rp.2,
          fsOps := preOps ++ [FsOp.readFile rp.1, FsOp.writeFile rp.1],
          fileState := some (some doc), dirExists := true }
      | .arr es =>
        let doc := jsMergeEntry (.arr es) fragment
        { outcome := .written false doc, resolvedPath := rp.1, tildeNoticeShown := rp.2,
          fsOps := preOps ++ [FsOp.readFile rp.1, FsOp.writeFile rp.1],
          fileState := some (some doc), dirExists := true }
      | _ =>
        { outcome := .invalidExisting, resolvedPath := rp.1, tildeNoticeShown := rp.2,
          fsOps := preOps ++ [FsOp.readFile rp.1], fileState := i.fileState,
          dirExists := true }

/-- Feeding back the handler's effect for a second click with unchanged
settings, configuration and home directory. -/
def rerunInput (i : UpdateInput) (o : UpdateOutput) : UpdateInput :=
  { i with fileState := o.fileState, dirExists := o.dirExists }

/-! ### Lemmas about the JavaScript object operations -/

theorem map_replaceFun_eq_self (ms : List (String × Json)) (k : String) (v : Json)
    (h : ms.any (fun m => m.1 == k) = false) :
    ms.map (fun m => bif m.1 == k then (k, v) else m) = ms := by
  induction ms with
  | nil => rfl
  | cons a tl ih =>
    simp only [List.any_cons, Bool.or_eq_false_iff] at h
    simp [h.1, ih h.2]

theorem lookup_map_replaceFun_self (ms : List (String × Json)) (k : String) (v : Json)
    (h : ms.any (fun m => m.1 == k) = true) :
    (ms.map (fun m => bif m.1 == k then (k, v) else m)).lookup k = some v := by
  induction ms with
  | nil => simp at h
  | cons a tl ih =>
    by_cases hk : a.1 = k
    · have hk1 : (a.1 == k) = true := by simpa using hk
      simp [List.lookup, hk1]
    · have hk1 : (a.1 == k) = false := by simpa using hk
      simp only [List.any_cons, hk1, Bool.false_or] at h
      have hk2 : (k == a.1) = false := by simpa using Ne.symm hk
      simp [List.lookup, hk1, hk2, ih h]

theorem lookup_append_single_self (ms : List (String × Json)) (k : String) (v : Json)
    (h : ms.any (fun m => m.1 == k) = false) :
    (ms ++ [(k, v)]).lookup k = some v := by
  induction ms with
  | nil => simp [List.lookup]
  | cons a tl ih =>
    simp only [List.any_cons, Bool.or_eq_false_iff] at h
    have hk : (k == a.1) = false := by
      have := h.1
      simp only [beq_eq_false_iff_ne] at this ⊢
      exact Ne.symm this
    simpa [List.lookup, hk] using ih h.2

theorem lookup_jsSetProp_self (ms : List (String × Json)) (k : String) (v : Json) :
    (jsSetProp ms k v).lookup k = some v := by
  unfold jsSetProp
  by_cases h : ms.any (fun m => m.1 == k) = true
  · rw [if_pos h]
    exact lookup_map_replaceFun_self ms k v h
  · rw [if_neg h]
    exact lookup_append_single_self ms k v (Bool.eq_false_iff.mpr h)

theorem lookup_map_replaceFun_ne (ms : List (String × Json)) (k k' : String) (v : Json)
    (h : k' ≠ k) :
    (ms.map (fun m => bif m.1 == k then (k, v) else m)).lookup k' = ms.lookup k' := by
  induction ms with
  | nil => rfl
  | cons a tl ih =>
    by_cases hk : a.1 = k
    · have hk1 : (a.1 == k) = true := by simpa using hk
      have hk2 : (k' == k) = false := by simpa using h
      have hk3 : (k' == a.1) = false := by rw [hk]; exact hk2
      simp [List.lookup, hk1, hk2, hk3, ih]
    · have hk1 : (a.1 == k) = false := by simpa using hk
      by_cases hk4 : k' = a.1
      · simp [List.lookup, hk1, hk4]
      · have hk5 : (k' == a.1) = false := by simpa using hk4
        simp [List.lookup, hk1, hk5, ih]

theorem lookup_append_single_ne (ms : List (String × Json)) (k k' : String) (v : Json)
    (h : k' ≠ k) : (ms ++ [(k, v)]).lookup k' = ms.lookup k' := by
  induction ms with
  | nil =>
    have hk2 : (k' == k) = false := by simpa using h
    simp [List.lookup, hk2]
  | cons a tl ih =>
    by_cases hk4 : k' = a.1
    · simp [List.lookup, hk4]
    · have hk5 : (k' == a.1) = false := by simpa using hk4
      simp [List.lookup, hk5, ih]

theorem lookup_jsSetProp_ne (ms : List (String × Json)) (k k' : String) (v : Json)
    (h : k' ≠ k) : (jsSetProp ms k v).lookup k' = ms.lookup k' := by
  unfold jsSetProp
  split
  · exact lookup_map_replaceFun_ne ms k k' v h
  · exact lookup_append_single_ne ms k k' v h

theorem any_map_replaceFun (ms : List (String × Json)) (k : String) (v : Json)
    (h : ms.any (fun m => m.1 == k) = true) :
    (ms.map (fun m => bif m.1 == k then (k, v) else m)).any (fun m => m.1 == k) = true := by
  induction ms with
  | nil => simp at h
  | cons a tl ih =>
    by_cases hk : a.1 = k
    · have hk1 : (a.1 == k) = true := by simpa using hk
      simp [hk1]
    · have hk1 : (a.1 == k) = false := by simpa using hk
      simp only [List.any_cons, hk1, Bool.false_or] at h
      simp [hk1, ih h]

theorem map_replaceFun_idem (ms : List (String × Json)) (k : String) (v : Json) :
    (ms.map (fun m => bif m.1 == k then (k, v) else m)).map
        (fun m => bif m.1 == k then (k, v) else m)
      = ms.map (fun m => bif m.1 == k then (k, v) else m) := by
  induction ms with
  | nil => rfl
  | cons a tl ih =>
    by_cases hk : a.1 = k
    · have hk1 : (a.1 == k) = true := by simpa using hk
      simp [hk1, ih]
    · have hk1 : (a.1 == k) = false := by simpa using hk
      simp [hk1, ih]

theorem jsSetProp_idem (ms : List (String × Json)) (k : String) (v : Json) :
    jsSetProp (jsSetProp ms k v) k v = jsSetProp ms k v := by
  by_cases h : ms.any (fun m => m.1 == k) = true
  · unfold jsSetProp
    rw [if_pos h, if_pos (any_map_replaceFun ms k v h)]
    exact map_replaceFun_idem ms k v
  · have h' : ms.any (fun m => m.1 == k) = false := Bool.eq_false_iff.mpr h
    unfold jsSetProp
    rw [if_neg h]
    have hany : ((ms ++ [(k, v)]).any fun m => m.1 == k) = true := by
      simp [List.any_append]
    rw [if_pos hany, List.map_append, map_replaceFun_eq_self ms k v h']
    simp

theorem mergedMcpServers_stable (ms : List (String × Json)) (frag : Option Json) :
    (∃ a, mergedMcpServers ms frag = .arr a)
    ∨ (∃ x, mergedMcpServers ms frag = .obj x ∧
        (match frag with
         | some f => jsSetProp x entryKey f = x
         | none => x.filter (fun p => p.1 != entryKey) = x)) := by
  unfold mergedMcpServers
  rcases hms : ms.lookup "mcpServers" with _ | val
  · right
    rcases frag with _ | f
    · exact ⟨[], rfl, rfl⟩
    · exact ⟨[(entryKey, f)], rfl, jsSetProp_idem [] entryKey f⟩
  · rcases val with _ | b | n | s | a | x
    · right
      rcases frag with _ | f
      · exact ⟨[], rfl, rfl⟩
      · exact ⟨[(entryKey, f)], rfl, jsSetProp_idem [] entryKey f⟩
    · right
      rcases frag with _ | f
      · exact ⟨[], rfl, rfl⟩
      · exact ⟨[(entryKey, f)], rfl, jsSetProp_idem [] entryKey f⟩
    · right
      rcases frag with _ | f
      · exact ⟨[], rfl, rfl⟩
      · exact ⟨[(entryKey, f)], rfl, jsSetProp_idem [] entryKey f⟩
    · right
      rcases frag with _ | f
      · exact ⟨[], rfl, rfl⟩
      · exact ⟨[(entryKey, f)], rfl, jsSetProp_idem [] entryKey f⟩
    · exact Or.inl ⟨a, rfl⟩
    · right
      rcases frag with _ | f
      · exact ⟨x.filter (fun p => p.1 != entryKey), rfl, by simp [List.filter_filter]⟩
      · exact ⟨jsSetProp x entryKey f, rfl, jsSetProp_idem x entryKey f⟩

theorem mergedMcpServers_rerun (ms : List (String × Json)) (frag : Option Json) :
    mergedMcpServers (jsSetProp ms "mcpServers" (mergedMcpServers ms frag)) frag
      = mergedMcpServers ms frag := by
  have hlook := lookup_jsSetProp_self ms "mcpServers" (mergedMcpServers ms frag)
  rcases mergedMcpServers_stable ms frag with ⟨a, hX⟩ | ⟨x, hX, hstab⟩
  · rw [hX] at hlook ⊢
    unfold mergedMcpServers
    rw [hlook]
  · rw [hX] at hlook ⊢
    unfold mergedMcpServers
    rw [hlook]
    rcases frag with _ | f
    · show Json.obj (List.filter (fun p => p.1 != entryKey) x) = Json.obj x
      exact congrArg Json.obj hstab
    · show Json.obj (jsSetProp x entryKey f) = Json.obj x
      exact congrArg Json.obj hstab

theorem jsMergeEntry_idem (d : Json) (frag : Option Json) :
    jsMergeEntry (jsMergeEntry d frag) frag = jsMergeEntry d frag := by
  cases d with
  | obj ms =>
    show Json.obj (jsSetProp (jsSetProp ms "mcpServers" (mergedMcpServers ms frag)) "mcpServers"
      (mergedMcpServers (jsSetProp ms "mcpServers" (mergedMcpServers ms frag)) frag)) = _
    rw [mergedMcpServers_rerun, jsSetProp_idem]
    rfl
  | arr es => rfl
  | null => rfl
  | bool b => rfl
  | num n => rfl
  | str s => rfl

theorem keys_map_replaceFun (ms : List (String × Json)) (k : String) (v : Json) :
    (ms.map (fun m => bif m.1 == k then (k, v) else m)).map Prod.fst = ms.map Prod.fst := by
  induction ms with
  | nil => rfl
  | cons a tl ih =>
    by_cases hk : a.1 = k
    · have hk1 : (a.1 == k) = true := by simpa using hk
      simp [hk1, ih, hk]
    · have hk1 : (a.1 == k) = false := by simpa using hk
      simp [hk1, ih]

theorem not_mem_keys_of_any_false (ms : List (String × Json)) (k : String)
    (h : ms.any (fun m => m.1 == k) = false) : k ∉ ms.map Prod.fst := by
  induction ms with
  | nil => simp
  | cons a tl ih =>
    simp only [List.any_cons, Bool.or_eq_false_iff] at h
    simp only [List.map_cons, List.mem_cons]
    rintro (h1 | h2)
    · exact absurd h1.symm (by simpa using h.1)
    · exact ih h.2 h2

theorem nodup_keys_jsSetProp (ms : List (String × Json)) (k : String) (v : Json)
    (h : (ms.map Prod.fst).Nodup) : ((jsSetProp ms k v).map Prod.fst).Nodup := by
  unfold jsSetProp
  split
  · rw [keys_map_replaceFun]
    exact h
  · rename_i hany
    have hnotmem := not_mem_keys_of_any_false ms k (Bool.eq_false_iff.mpr hany)
    simp [List.nodup_append, h, hnotmem]

/-- The top-level keys of a document (empty for non-objects). -/
def topKeys : Json → List String
  | .obj members => members.map Prod.fst
  | _ => []

/-- The keys of the document's `mcpServers` member (empty when it is not an
object). -/
def mcpServersKeys (d : Json) : List String :=
  match jsGetProp d "mcpServers" with
  | some (.obj m) => m.map Prod.fst
  | _ => []

theorem nodup_keys_mergedMcpServers (ms : List (String × Json)) (m' : List (String × Json))
    (f : Json) (h2 : (mcpServersKeys (.obj ms)).Nodup)
    (h : mergedMcpServers ms (some f) = .obj m') : (m'.map Prod.fst).Nodup := by
  unfold mergedMcpServers at h
  rcases hms : ms.lookup "mcpServers" with _ | val
  · rw [hms] at h
    injection h with h'
    subst h'
    simp
  · rw [hms] at h
    rcases val with _ | b | n | s | a | x
    · injection h with h'; subst h'; simp
    · injection h with h'; subst h'; simp
    · injection h with h'; subst h'; simp
    · injection h with h'; subst h'; simp
    · exact Json.noConfusion h
    · injection h with h'
      subst h'
      have hget : jsGetProp (.obj ms) "mcpServers" = some (.obj x) := hms
      have hkeys : mcpServersKeys (.obj ms) = x.map Prod.fst := by
        unfold mcpServersKeys
        rw [hget]
      rw [hkeys] at h2
      exact nodup_keys_jsSetProp x entryKey f h2

/-! ### Concrete scenarios -/

/-- A sample fragment for the concrete scenarios. -/
def sampleFragment : Json := .obj [("command", .str "uv")]

/-- The array-file scenario: the target file contains `[1,2,3]`. -/
def arrayFileInput : UpdateInput :=
  { claudeConfigPath := "/tmp/claude_desktop_config.json"
    mcpJsonConfig := some (.obj [(entryKey, sampleFragment)])
    homedir := some "/home/user"
    dirExists := true
    fileState := some (some (.arr [.num 1, .num 2, .num 3])) }

/-- The tilde scenario: a `~/` path with no resolvable home directory. -/
def tildeNoHomeInput : UpdateInput :=
  { claudeConfigPath := "~/claude_desktop_config.json"
    mcpJsonConfig := some (.obj [(entryKey, sampleFragment)])
    homedir := none
    dirExists := true
    fileState := none }

/-- The malformed-file scenario: the target file exists but is not JSON. -/
def malformedFileInput : UpdateInput :=
  { claudeConfigPath := "/tmp/claude_desktop_config.json"
    mcpJsonConfig := some (.obj [(entryKey, sampleFragment)])
    homedir := some "/home/user"
    dirExists := true
    fileState := some none }

/-- The missing-file scenario: neither the file nor its directory exists. -/
def missingFileInput : UpdateInput :=
  { claudeConfigPath := "/tmp/newdir/claude_desktop_config.json"
    mcpJsonConfig := some (.obj [(entryKey, sampleFragment)])
    homedir := some "/home/user"
    dirExists := false
    fileState := none }

/-- The whitespace-path scenario: the configured path is only whitespace. -/
def whitespacePathInput : UpdateInput :=
  { claudeConfigPath := "   "
    mcpJsonConfig := some (.obj [(entryKey, sampleFragment)])
    homedir := some "/home/user"
    dirExists := true
    fileState := none }

/-- Sample settings for the synthesis scenarios. -/
def sampleSettings : MyPluginSettings :=
  { claudeConfigPath := "/tmp/claude_desktop_config.json"
    uvPath := some "/usr/local/bin/uv"
    historyFolder := some "mcp-history"
    maxHistoryFiles := 100 }

/-- No-companion-plugin credentials: both fields null. -/
def sampleCredentials : RestApiCredentials := { url := none, apiKey := none }

/-! ### The claims -/

/-- C1.  The claim says a target file parsing to a non-object — in particular
the array `[1,2,3]` — makes the operation abort with the invalid-existing-file
notice, leaving the file unwritten.  The code's guard is
`typeof fileConfig !== 'object' || fileConfig === null` (line 490), and a
JavaScript array satisfies `typeof x === 'object'`, so `[1,2,3]` passes the
guard: the handler assigns the entry as a string-keyed property of the array
(dropped again by `JSON.stringify`), REWRITES the file with the serialized
array, and reports success — it does not abort. -/
theorem claim1_array_file_rewritten_not_aborted :
    (updateClaudeDesktopConfigFile arrayFileInput).outcome
      = .written false (.arr [.num 1, .num 2, .num 3])
    ∧ (updateClaudeDesktopConfigFile arrayFileInput).outcome ≠ .invalidExisting
    ∧ FsOp.writeFile "/tmp/claude_desktop_config.json"
        ∈ (updateClaudeDesktopConfigFile arrayFileInput).fsOps
    ∧ (updateClaudeDesktopConfigFile arrayFileInput).fileState
        = some (some (.arr [.num 1, .num 2, .num 3])) := by
  refine ⟨rfl, fun h => UpdateOutcome.noConfusion h, ?_, rfl⟩
  have h : (updateClaudeDesktopConfigFile arrayFileInput).fsOps
      = [FsOp.checkDir "/tmp", FsOp.checkFile "/tmp/claude_desktop_config.json",
         FsOp.readFile "/tmp/claude_desktop_config.json",
         FsOp.writeFile "/tmp/claude_desktop_config.json"] := rfl
  rw [h]
  simp

/-- C2 counterexample.  The claim says that with a `~/` path and no resolvable
home directory the operation fails before touching the filesystem.  At this
concrete input the handler instead performs filesystem calls — including a
write — at the literal unexpanded path, and changes the file state. -/
theorem claim2_counterexample_fs_touched_despite_unresolvable_home :
    (updateClaudeDesktopConfigFile tildeNoHomeInput).fsOps ≠ []
    ∧ FsOp.writeFile "~/claude_desktop_config.json"
        ∈ (updateClaudeDesktopConfigFile tildeNoHomeInput).fsOps
    ∧ (updateClaudeDesktopConfigFile tildeNoHomeInput).fileState
        ≠ tildeNoHomeInput.fileState := by
  refine ⟨?_, ?_, ?_⟩
  · intro h
    have h2 : (updateClaudeDesktopConfigFile tildeNoHomeInput).fsOps
        = [FsOp.checkDir "~", FsOp.checkFile "~/claude_desktop_config.json",
           FsOp.writeFile "~/claude_desktop_config.json"] := rfl
    rw [h2] at h
    exact List.noConfusion h
  · have h2 : (updateClaudeDesktopConfigFile tildeNoHomeInput).fsOps
        = [FsOp.checkDir "~", FsOp.checkFile "~/claude_desktop_config.json",
           FsOp.writeFile "~/claude_desktop_config.json"] := rfl
    rw [h2]
    simp
  · intro h
    have h2 : (updateClaudeDesktopConfigFile tildeNoHomeInput).fileState
        = some (some (.obj [("mcpServers", .obj [(entryKey, sampleFragment)])])) := rfl
    rw [h2] at h
    exact Option.noConfusion h

/-- C2 (amended).  When the target path begins with `~/` or `~\` and the home
directory cannot be determined, the handler does NOT abort: it shows the
could-not-expand notice (lines 456-457) and proceeds with the literal
unexpanded path, so the filesystem is accessed at that path. -/
theorem claim2_amended_tilde_notice_and_proceed (i : UpdateInput)
    (htilde : jsStartsWith i.claudeConfigPath "~/" = true
      ∨ jsStartsWith i.claudeConfigPath "~\\" = true)
    (hhome : i.homedir = none)
    (hpath : jsTrim i.claudeConfigPath ≠ "")
    (hcfg : noConfigData i.mcpJsonConfig = false) :
    (updateClaudeDesktopConfigFile i).tildeNoticeShown = true
    ∧ (updateClaudeDesktopConfigFile i).resolvedPath = i.claudeConfigPath
    ∧ FsOp.checkDir (dirname i.claudeConfigPath) ∈ (updateClaudeDesktopConfigFile i).fsOps
    ∧ (updateClaudeDesktopConfigFile i).fsOps ≠ [] := by
  have hor : (jsStartsWith i.claudeConfigPath "~/"
      || jsStartsWith i.claudeConfigPath "~\\") = true := by
    rcases htilde with h | h <;> simp [h]
  have hrp : resolveTargetPath i.claudeConfigPath i.homedir = (i.claudeConfigPath, true) := by
    unfold resolveTargetPath
    rw [hor, hhome]
    simp
  rcases hfs : i.fileState with _ | om
  · simp [updateClaudeDesktopConfigFile, hpath, hcfg, hrp, hfs]
  · rcases om with _ | j
    · simp [updateClaudeDesktopConfigFile, hpath, hcfg, hrp, hfs]
    · rcases j with _ | b | n | s | es | ms <;>
        simp [updateClaudeDesktopConfigFile, hpath, hcfg, hrp, hfs]

/-- C2 witness: the amended claim at the concrete tilde scenario. -/
theorem claim2_amended_witness :
    (updateClaudeDesktopConfigFile tildeNoHomeInput).tildeNoticeShown = true
    ∧ (updateClaudeDesktopConfigFile tildeNoHomeInput).resolvedPath
        = tildeNoHomeInput.claudeConfigPath
    ∧ FsOp.checkDir (dirname tildeNoHomeInput.claudeConfigPath)
        ∈ (updateClaudeDesktopConfigFile tildeNoHomeInput).fsOps
    ∧ (updateClaudeDesktopConfigFile tildeNoHomeInput).fsOps ≠ [] :=
  claim2_amended_tilde_notice_and_proceed tildeNoHomeInput (Or.inl rfl) rfl
    (by decide) rfl

/-- C3.  For an existing target document that is a JSON object, the merge
changes only `document.mcpServers[entryKey]`: every other top-level key reads
back unchanged, and when `mcpServers` was an object, every other key under it
reads back unchanged while the entry key now holds exactly the fragment; in
particular the spec's concrete document keeps `unrelated` and
`mcpServers.other` and gains the new entry. -/
theorem claim3_merge_touches_only_own_entry (ms : List (String × Json)) (f : Json) :
    (∀ k, k ≠ "mcpServers" →
      jsGetProp (jsMergeEntry (.obj ms) (some f)) k = jsGetProp (.obj ms) k)
    ∧ (∀ m, ms.lookup "mcpServers" = some (.obj m) →
        (∀ k', k' ≠ entryKey →
          jsGetProp2 (jsMergeEntry (.obj ms) (some f)) "mcpServers" k' = m.lookup k')
        ∧ jsGetProp2 (jsMergeEntry (.obj ms) (some f)) "mcpServers" entryKey = some f)
    ∧ jsMergeEntry (.obj [("unrelated", .num 1),
          ("mcpServers", .obj [("other", .obj [("x", .num 1)])])]) (some f)
        = .obj [("unrelated", .num 1),
            ("mcpServers", .obj [("other", .obj [("x", .num 1)]), (entryKey, f)])] := by
  refine ⟨?_, ?_, rfl⟩
  · intro k hk
    show (jsSetProp ms "mcpServers" (mergedMcpServers ms (some f))).lookup k = ms.lookup k
    exact lookup_jsSetProp_ne ms "mcpServers" k _ hk
  · intro m hm
    have houter : jsGetProp (jsMergeEntry (.obj ms) (some f)) "mcpServers"
        = some (mergedMcpServers ms (some f)) :=
      lookup_jsSetProp_self ms "mcpServers" (mergedMcpServers ms (some f))
    have hmcp : mergedMcpServers ms (some f) = .obj (jsSetProp m entryKey f) := by
      unfold mergedMcpServers
      rw [hm]
    constructor
    · intro k' hk'
      unfold jsGetProp2
      rw [houter, hmcp]
      show (jsSetProp m entryKey f).lookup k' = m.lookup k'
      exact lookup_jsSetProp_ne m entryKey k' f hk'
    · unfold jsGetProp2
      rw [houter, hmcp]
      exact lookup_jsSetProp_self m entryKey f

/-- C3 witness: the preservation statement at the spec's concrete document. -/
theorem claim3_witness :
    jsGetProp (jsMergeEntry (.obj [("unrelated", Json.num 1),
        ("mcpServers", Json.obj [("other", Json.obj [("x", Json.num 1)])])])
        (some (Json.num 7))) "unrelated"
      = jsGetProp (.obj [("unrelated", Json.num 1),
          ("mcpServers", Json.obj [("other", Json.obj [("x", Json.num 1)])])]) "unrelated"
    ∧ jsGetProp2 (jsMergeEntry (.obj [("unrelated", Json.num 1),
        ("mcpServers", Json.obj [("other", Json.obj [("x", Json.num 1)])])])
        (some (Json.num 7))) "mcpServers" "other"
      = [("other", Json.obj [("x", Json.num 1)])].lookup "other" :=
  ⟨(claim3_merge_touches_only_own_entry [("unrelated", Json.num 1),
      ("mcpServers", Json.obj [("other", Json.obj [("x", Json.num 1)])])]
      (Json.num 7)).1 "unrelated" (by decide),
   ((claim3_merge_touches_only_own_entry [("unrelated", Json.num 1),
      ("mcpServers", Json.obj [("other", Json.obj [("x", Json.num 1)])])]
      (Json.num 7)).2.1 [("other", Json.obj [("x", Json.num 1)])] rfl).1 "other" (by decide)⟩

/-- C4.  When the existing target file does not parse as JSON, the handler
does not abort: it shows the distinct line-495 warning (recorded as the
`warnedMalformed` flag of the result, not a silent success), proceeds as
though the document were empty, and writes exactly
`\x7b "mcpServers": \x7b "<entryKey>": <fragment> \x7d \x7d`. -/
theorem claim4_malformed_file_warn_and_fresh_document (i : UpdateInput) (f : Json)
    (hpath : jsTrim i.claudeConfigPath ≠ "")
    (hcfg : i.mcpJsonConfig = some (.obj [(entryKey, f)]))
    (hfs : i.fileState = some none) :
    (updateClaudeDesktopConfigFile i).outcome
      = .written true (.obj [("mcpServers", .obj [(entryKey, f)])])
    ∧ (updateClaudeDesktopConfigFile i).fileState
      = some (some (.obj [("mcpServers", .obj [(entryKey, f)])])) := by
  constructor <;>
    simp [updateClaudeDesktopConfigFile, hpath, hcfg, hfs, noConfigData, jsKeysLength,
      jsMergeEntry, mergedMcpServers, jsGetProp, jsSetProp, entryKey]

/-- C4 witness: the malformed-file scenario with the sample fragment. -/
theorem claim4_witness :
    (updateClaudeDesktopConfigFile malformedFileInput).outcome
      = .written true (.obj [("mcpServers", .obj [(entryKey, sampleFragment)])])
    ∧ (updateClaudeDesktopConfigFile malformedFileInput).fileState
      = some (some (.obj [("mcpServers", .obj [(entryKey, sampleFragment)])])) :=
  claim4_malformed_file_warn_and_fresh_document malformedFileInput sampleFragment
    (by decide) rfl rfl

/-- C5.  When no file exists at the target path, the handler creates the
missing parent directory chain (`mkdirSync` recursive, line 477, when the
directory check fails), writes the file, and the written document's only
top-level key is `mcpServers` holding exactly the one new entry equal to the
fragment. -/
theorem claim5_missing_file_created (i : UpdateInput) (f : Json)
    (hpath : jsTrim i.claudeConfigPath ≠ "")
    (hcfg : i.mcpJsonConfig = some (.obj [(entryKey, f)]))
    (hfs : i.fileState = none) :
    (updateClaudeDesktopConfigFile i).outcome
      = .written false (.obj [("mcpServers", .obj [(entryKey, f)])])
    ∧ (updateClaudeDesktopConfigFile i).fileState
      = some (some (.obj [("mcpServers", .obj [(entryKey, f)])]))
    ∧ (i.dirExists = false →
        FsOp.mkdir (dirname (updateClaudeDesktopConfigFile i).resolvedPath)
          ∈ (updateClaudeDesktopConfigFile i).fsOps)
    ∧ FsOp.writeFile (updateClaudeDesktopConfigFile i).resolvedPath
        ∈ (updateClaudeDesktopConfigFile i).fsOps := by
  refine ⟨?_, ?_, ?_, ?_⟩
  · simp [updateClaudeDesktopConfigFile, hpath, hcfg, hfs, noConfigData, jsKeysLength,
      jsMergeEntry, mergedMcpServers, jsGetProp, jsSetProp, entryKey]
  · simp [updateClaudeDesktopConfigFile, hpath, hcfg, hfs, noConfigData, jsKeysLength,
      jsMergeEntry, mergedMcpServers, jsGetProp, jsSetProp, entryKey]
  · intro hdir
    simp [updateClaudeDesktopConfigFile, hpath, hcfg, hfs, hdir, noConfigData, jsKeysLength]
  · simp [updateClaudeDesktopConfigFile, hpath, hcfg, hfs, noConfigData, jsKeysLength]

/-- C5 witness: the missing-file scenario (directory also missing). -/
theorem claim5_witness :
    (updateClaudeDesktopConfigFile missingFileInput).outcome
      = .written false (.obj [("mcpServers", .obj [(entryKey, sampleFragment)])])
    ∧ FsOp.mkdir (dirname (updateClaudeDesktopConfigFile missingFileInput).resolvedPath)
        ∈ (updateClaudeDesktopConfigFile missingFileInput).fsOps
    ∧ FsOp.writeFile (updateClaudeDesktopConfigFile missingFileInput).resolvedPath
        ∈ (updateClaudeDesktopConfigFile missingFileInput).fsOps :=
  ⟨(claim5_missing_file_created missingFileInput sampleFragment (by decide) rfl rfl).1,
   (claim5_missing_file_created missingFileInput sampleFragment (by decide) rfl rfl).2.2.1 rfl,
   (claim5_missing_file_created missingFileInput sampleFragment (by decide) rfl rfl).2.2.2⟩

/-- C6.  The merge is idempotent: clicking `Update JSON` twice with the same
configuration, settings and home directory leaves the same file state as
clicking once, for EVERY initial file state; and the key-scoped merge on an
object document introduces no duplicate keys, either at top level or inside
`mcpServers` (the entry key is replaced in place when already present, never
duplicated or renamed). -/
theorem claim6_merge_idempotent (i : UpdateInput) :
    (updateClaudeDesktopConfigFile (rerunInput i (updateClaudeDesktopConfigFile i))).fileState
      = (updateClaudeDesktopConfigFile i).fileState
    ∧ ∀ (ms : List (String × Json)) (f : Json),
        (topKeys (.obj ms)).Nodup → (mcpServersKeys (.obj ms)).Nodup →
        (topKeys (jsMergeEntry (.obj ms) (some f))).Nodup
        ∧ ∀ m', jsGetProp (jsMergeEntry (.obj ms) (some f)) "mcpServers" = some (.obj m') →
            (m'.map Prod.fst).Nodup := by
  constructor
  · by_cases h1 : jsTrim i.claudeConfigPath = ""
    · simp [updateClaudeDesktopConfigFile, rerunInput, h1]
    · by_cases h2 : noConfigData i.mcpJsonConfig = true
      · simp [updateClaudeDesktopConfigFile, rerunInput, h1, h2]
      · have h2' : noConfigData i.mcpJsonConfig = false := Bool.eq_false_iff.mpr h2
        rcases hfs : i.fileState with _ | om
        · simp only [updateClaudeDesktopConfigFile, rerunInput, h1, h2', hfs, jsMergeEntry,
            Bool.false_eq_true, if_false, ite_false, mergedMcpServers_rerun, jsSetProp_idem]
        · rcases om with _ | j
          · simp only [updateClaudeDesktopConfigFile, rerunInput, h1, h2', hfs, jsMergeEntry,
              Bool.false_eq_true, if_false, ite_false, mergedMcpServers_rerun, jsSetProp_idem]
          · rcases j with _ | b | n | s | es | ms <;>
              simp [updateClaudeDesktopConfigFile, rerunInput, h1, h2', hfs, jsMergeEntry,
                mergedMcpServers_rerun, jsSetProp_idem]
  · intro ms f h1 h2
    constructor
    · show ((jsSetProp ms "mcpServers" (mergedMcpServers ms (some f))).map Prod.fst).Nodup
      exact nodup_keys_jsSetProp ms "mcpServers" _ h1
    · intro m' hm'
      have houter : jsGetProp (jsMergeEntry (.obj ms) (some f)) "mcpServers"
          = some (mergedMcpServers ms (some f)) :=
        lookup_jsSetProp_self ms "mcpServers" (mergedMcpServers ms (some f))
      rw [houter] at hm'
      injection hm' with hm''
      exact nodup_keys_mergedMcpServers ms m' f h2 hm''

/-- C6 witness: idempotence at the missing-file scenario, and no duplicate
keys at a one-key concrete document. -/
theorem claim6_witness :
    (updateClaudeDesktopConfigFile (rerunInput missingFileInput
        (updateClaudeDesktopConfigFile missingFileInput))).fileState
      = (updateClaudeDesktopConfigFile missingFileInput).fileState
    ∧ (topKeys (jsMergeEntry (.obj [("unrelated", Json.num 1)]) (some sampleFragment))).Nodup :=
  ⟨(claim6_merge_idempotent missingFileInput).1,
   ((claim6_merge_idempotent missingFileInput).2 [("unrelated", Json.num 1)] sampleFragment
      (by decide) (by decide)).1⟩

/-- C7.  The synthesized fragment's `command` is the configured `uvPath` when
it is a non-empty string and the fixed default `"uv"` otherwise, and its `env`
maps `OBSIDIAN_HOST` / `OBSIDIAN_API_KEY` to the credential url / apiKey
(present with value null when unavailable, since `optStr none = Json.null` is
a present member), `OBSIDIAN_HISTORY_FOLDER` to the history folder or null,
and `OBSIDIAN_MAX_HISTORY_FILES` to `String(maxHistoryFiles)`. -/
theorem claim7_fragment_fields (s : MyPluginSettings) (basePath pluginDir : String)
    (c : RestApiCredentials) :
    (∀ p, s.uvPath = some p → p ≠ "" →
      jsGetProp (mcpJsonConfigFragment s basePath pluginDir c) "command" = some (.str p))
    ∧ ((s.uvPath = none ∨ s.uvPath = some "") →
      jsGetProp (mcpJsonConfigFragment s basePath pluginDir c) "command" = some (.str "uv"))
    ∧ jsGetProp2 (mcpJsonConfigFragment s basePath pluginDir c) "env" "OBSIDIAN_HOST"
        = some (optStr c.url)
    ∧ jsGetProp2 (mcpJsonConfigFragment s basePath pluginDir c) "env" "OBSIDIAN_API_KEY"
        = some (optStr c.apiKey)
    ∧ jsGetProp2 (mcpJsonConfigFragment s basePath pluginDir c) "env" "OBSIDIAN_HISTORY_FOLDER"
        = some (optStr s.historyFolder)
    ∧ jsGetProp2 (mcpJsonConfigFragment s basePath pluginDir c) "env" "OBSIDIAN_MAX_HISTORY_FILES"
        = some (.str (toString s.maxHistoryFiles)) := by
  refine ⟨?_, ?_, rfl, rfl, rfl, rfl⟩
  · intro p hp hne
    simp [mcpJsonConfigFragment, jsGetProp, hp, hne, List.lookup]
  · intro h
    rcases h with h | h <;> simp [mcpJsonConfigFragment, jsGetProp, h, List.lookup]

/-- C7 witness: a configured command path, and null credentials staying
present as null members. -/
theorem claim7_witness :
    jsGetProp (mcpJsonConfigFragment sampleSettings "/vault" "plugins/obsidian-mcp-server"
        sampleCredentials) "command" = some (.str "/usr/local/bin/uv")
    ∧ jsGetProp2 (mcpJsonConfigFragment sampleSettings "/vault" "plugins/obsidian-mcp-server"
        sampleCredentials) "env" "OBSIDIAN_HOST" = some Json.null
    ∧ jsGetProp2 (mcpJsonConfigFragment sampleSettings "/vault" "plugins/obsidian-mcp-server"
        sampleCredentials) "env" "OBSIDIAN_API_KEY" = some Json.null :=
  ⟨(claim7_fragment_fields sampleSettings "/vault" "plugins/obsidian-mcp-server"
      sampleCredentials).1 "/usr/local/bin/uv" rfl (by decide),
   (claim7_fragment_fields sampleSettings "/vault" "plugins/obsidian-mcp-server"
      sampleCredentials).2.2.1,
   (claim7_fragment_fields sampleSettings "/vault" "plugins/obsidian-mcp-server"
      sampleCredentials).2.2.2.1⟩

/-- C8.  When the `Max History Files` input does not parse as an integer
(`parseInt` yields `NaN`) or parses to a negative value, the handler keeps the
stored setting, restores the prior displayed value, shows a notice, does not
re-synthesize the fragment, and the fragment computed from the resulting
settings is unchanged. -/
theorem claim8_invalid_max_history_rejected (prev : Int) (input : String)
    (h : jsParseInt input = none ∨ ∃ n, jsParseInt input = some n ∧ n < 0) :
    (maxHistoryFilesOnChange prev input).maxHistoryFiles = prev
    ∧ (maxHistoryFilesOnChange prev input).displayValue = some (toString prev)
    ∧ (maxHistoryFilesOnChange prev input).noticeShown = true
    ∧ (maxHistoryFilesOnChange prev input).configRecomputed = false
    ∧ ∀ (s : MyPluginSettings) (basePath pluginDir : String) (c : RestApiCredentials),
        s.maxHistoryFiles = prev →
        mcpJsonConfigFragment
            { s with maxHistoryFiles := (maxHistoryFilesOnChange prev input).maxHistoryFiles }
            basePath pluginDir c
          = mcpJsonConfigFragment s basePath pluginDir c := by
  have hr : maxHistoryFilesOnChange prev input
      = { maxHistoryFiles := prev, displayValue := some (toString prev), noticeShown := true,
          configRecomputed := false } := by
    unfold maxHistoryFilesOnChange
    rcases h with h | ⟨n, hn, hneg⟩
    · rw [h]
    · rw [hn]
      have hlt : ¬ n ≥ 0 := by omega
      simp [hlt]
  rw [hr]
  refine ⟨rfl, rfl, rfl, rfl, ?_⟩
  intro s basePath pluginDir c hs
  rw [← hs]

/-- C8 witness: the inputs `"-1"` and `"abc"` from the spec. -/
theorem claim8_witness :
    (maxHistoryFilesOnChange 100 "-1").maxHistoryFiles = 100
    ∧ (maxHistoryFilesOnChange 100 "-1").displayValue = some "100"
    ∧ (maxHistoryFilesOnChange 100 "abc").maxHistoryFiles = 100
    ∧ (maxHistoryFilesOnChange 100 "abc").noticeShown = true :=
  ⟨(claim8_invalid_max_history_rejected 100 "-1" (Or.inr ⟨-1, by decide, by decide⟩)).1,
   (claim8_invalid_max_history_rejected 100 "-1" (Or.inr ⟨-1, by decide, by decide⟩)).2.1,
   (claim8_invalid_max_history_rejected 100 "abc" (Or.inl rfl)).1,
   (claim8_invalid_max_history_rejected 100 "abc" (Or.inl rfl)).2.2.1⟩

/-- C9.  Fragment synthesis is deterministic: two runs with equal settings,
equal vault base path, equal plugin directory and equal credentials produce
byte-identical pretty-printed wrappers. -/
theorem claim9_synthesis_deterministic (s1 s2 : MyPluginSettings) (b1 b2 d1 d2 : String)
    (c1 c2 : RestApiCredentials) (hs : s1 = s2) (hb : b1 = b2) (hd : d1 = d2) (hc : c1 = c2) :
    updateMcpJsonConfigDisplay s1 b1 d1 c1 = updateMcpJsonConfigDisplay s2 b2 d2 c2 := by
  subst hs hb hd hc
  rfl

/-- C9 witness: determinism at concrete settings and credentials. -/
theorem claim9_witness :
    updateMcpJsonConfigDisplay sampleSettings "/vault" "plugins/obsidian-mcp-server"
        sampleCredentials
      = updateMcpJsonConfigDisplay sampleSettings "/vault" "plugins/obsidian-mcp-server"
        sampleCredentials :=
  claim9_synthesis_deterministic sampleSettings sampleSettings "/vault" "/vault"
    "plugins/obsidian-mcp-server" "plugins/obsidian-mcp-server"
    sampleCredentials sampleCredentials rfl rfl rfl rfl

/-- C10.  When the configured path is empty or only whitespace (line 434), or
no configuration fragment has been computed (line 439), the handler returns
with an error notice and performs no filesystem access at all: no directory
check or creation, no read, no write, and the file state is untouched. -/
theorem claim10_no_fs_access_on_missing_path_or_config (i : UpdateInput)
    (h : jsTrim i.claudeConfigPath = "" ∨ noConfigData i.mcpJsonConfig = true) :
    (updateClaudeDesktopConfigFile i).fsOps = []
    ∧ (updateClaudeDesktopConfigFile i).fileState = i.fileState
    ∧ ((updateClaudeDesktopConfigFile i).outcome = .errNoPath
        ∨ (updateClaudeDesktopConfigFile i).outcome = .errNoConfig) := by
  by_cases h1 : jsTrim i.claudeConfigPath = ""
  · simp [updateClaudeDesktopConfigFile, h1]
  · rcases h with h | h
    · exact absurd h h1
    · simp [updateClaudeDesktopConfigFile, h1, h]

/-- C10 witness: a whitespace-only configured path. -/
theorem claim10_witness :
    (updateClaudeDesktopConfigFile whitespacePathInput).fsOps = []
    ∧ (updateClaudeDesktopConfigFile whitespacePathInput).fileState
        = whitespacePathInput.fileState
    ∧ ((updateClaudeDesktopConfigFile whitespacePathInput).outcome = .errNoPath
        ∨ (updateClaudeDesktopConfigFile whitespacePathInput).outcome = .errNoConfig) :=
  claim10_no_fs_access_on_missing_path_or_config whitespacePathInput (Or.inl (by decide))
